import Mathlib

/-
  Verification of the CHIP-9 driver (src/main.go): the loader with panic
  recovery (`Load`), the dual-ticker scheduling loop, and the
  pause/breakpoint run-state flag.

  The chip8 interpreter package is an external dependency; only the
  interface the driver uses (load a ROM, add a breakpoint, advance one
  step) is modelled, following the collaborator contract the spec states
  for it.  Go panics and `recover` are modelled by `Except` propagation
  and matching.
-/

namespace Chip9

/-- A machine image as the driver sees it: the loaded ROM bytes together
    with the breakpoint addresses registered on the machine
    (the `chip8.CHIP_8` collaborator; only the driver-facing interface is
    modelled). -/
structure CHIP_8 where
  rom : List Nat
  breakpoints : List Nat
  deriving DecidableEq, Repr

/-- Modelled from the spec: the machine collaborator's
    `addBreakpoint(address)` operation (`VM.AddBreakpoint(b)` in main.go) —
    registers one more breakpoint address on the machine. -/
def CHIP_8.AddBreakpoint (vm : CHIP_8) (b : Nat) : CHIP_8 :=
  { vm with breakpoints := vm.breakpoints ++ [b] }

/-- The result of `chip8.Assemble`: the assembled binary image plus the
    breakpoint addresses derived from debugger annotations in the source. -/
structure Assembly where
  ROM : List Nat
  Breakpoints : List Nat
  deriving DecidableEq, Repr

/-- Modelled from the spec: the external inputs consumed by `Load` — the
    file system behind `chip8.LoadFile`, the assembler `chip8.Assemble`
    (which fails with a descriptive error on malformed input), and the two
    built-in ROM images `chip8.Pong` (default) and `chip8.Dummy` (empty
    recovery image). -/
structure Env where
  fs : String → Except String (List Nat)
  assembleFn : String → Except String Assembly
  pong : List Nat
  dummy : List Nat

/-- Modelled from the spec: `chip8.LoadROM` — constructs a fresh machine
    from a binary image, with no breakpoints registered; an oversized image
    is a failure (a Go panic, modelled as `Except.error`).  CHIP-8 program
    space is 4096 - 0x200 = 3584 bytes. -/
def LoadROM (rom : List Nat) : Except String CHIP_8 :=
  if rom.length ≤ 3584 then .ok { rom := rom, breakpoints := [] }
  else .error ("ROM too large")

/-- Modelled from the spec: `chip8.LoadFile` — reads the named file's bytes
    and loads them as a binary image; I/O failure is a panic, modelled as
    `Except.error`. -/
def LoadFile (env : Env) (name : String) : Except String CHIP_8 :=
  match env.fs name with
  | .ok bytes => LoadROM bytes
  | .error e => .error e

/-- The unguarded body of `Load` (src/main.go lines 140-156): with no file,
    load the built-in Pong ROM; with the assemble flag, assemble the file,
    load the resulting image and register every breakpoint from the
    assembly; otherwise load the file directly as a binary image.  Any Go
    panic inside this region is modelled as `Except.error`. -/
def LoadBody (env : Env) (file : String) (assemble : Bool) :
    Except String CHIP_8 :=
  if file = "" then LoadROM env.pong
  else if assemble then
    match env.assembleFn file with
    | .error e => .error e
    | .ok asm =>
      match LoadROM asm.ROM with
      | .error e => .error e
      | .ok vm => .ok (asm.Breakpoints.foldl CHIP_8.AddBreakpoint vm)
  else LoadFile env file

/-- `Load` (src/main.go lines 130-157): runs the body under the deferred
    `recover`; on a panic it prints the recovered value and substitutes the
    built-in dummy image (a failure of that final `LoadROM(Dummy)` would
    escape the already-consumed `recover`, hence the outer `Except`).
    Returns the machine together with the messages printed on the way. -/
def Load (env : Env) (file : String) (assemble : Bool) :
    Except String (CHIP_8 × List String) :=
  match LoadBody env file assemble with
  | .ok vm => .ok (vm, [])
  | .error e =>
    match LoadROM env.dummy with
    | .ok vm => .ok (vm, [e])
    | .error e2 => .error e2

/-- A step outcome of `VM.Process`: normal progress, or a breakpoint hit
    carrying its printable description (`chip8.Breakpoint` implements Go's
    `error`; `nil` is normal progress). -/
inductive StepResult where
  | normal : StepResult
  | breakpoint : String → StepResult
  deriving DecidableEq, Repr

/-- The driver's mutable state around the scheduling loop: the shared
    run-state flag `Paused`, the machine handle `VM`, and the lines the
    loop has printed. -/
structure LoopState where
  Paused : Bool
  VM : CHIP_8
  output : List String
  deriving DecidableEq, Repr

/-- The two periodic triggers serviced by the loop's `select`: the video
    (present) ticker and the clock (step) ticker. -/
inductive Trigger where
  | video : Trigger
  | clock : Trigger
  deriving DecidableEq, Repr

/-- One servicing of a fired trigger: the `select` body of the scheduling
    loop (src/main.go lines 113-126), with `VM.Process` supplied as the
    external machine-advance operation `process`.  The video case runs
    `Refresh()`, which only draws and touches neither the run-state flag
    nor the machine.  Besides the successor state, the second component
    records the run-state argument of each `process` call the body makes
    (one entry per call site reached), so that the call discipline itself
    is provable. -/
def loopStep (process : CHIP_8 → Bool → CHIP_8 × StepResult)
    (s : LoopState) : Trigger → LoopState × List Bool
  | .video => (s, [])
  | .clock =>
    let r := process s.VM s.Paused
    match r.2 with
    | .breakpoint msg =>
      ({ Paused := true, VM := r.1, output := s.output ++ [msg] }, [s.Paused])
    | .normal => ({ s with VM := r.1 }, [s.Paused])

/-- Servicing a whole sequence of fired triggers, one loop body at a
    time. -/
def runTriggers (process : CHIP_8 → Bool → CHIP_8 × StepResult)
    (s : LoopState) (ts : List Trigger) : LoopState :=
  ts.foldl (fun s2 t => (loopStep process s2 t).1) s

/-- Modelled from the spec: the batch of pending external events one
    `ProcessEvents` call services (ProcessEvents lives in a repository file
    outside src/): whether the quit signal arrived, and the external
    debugger action applied to the run-state flag (the identity when no
    pause/resume command is pending). -/
structure ExtEvents where
  quit : Bool
  runState : Bool → Bool

/-- Modelled from the spec: `ProcessEvents` — services the pending external
    events, possibly flipping the shared run-state flag (the external
    pause/resume path), and returns whether the loop should continue,
    i.e. false exactly when the quit signal was received. -/
def processEvents (ev : ExtEvents) (s : LoopState) : Bool × LoopState :=
  (!ev.quit, { s with Paused := ev.runState s.Paused })

/-- One full iteration of `for ProcessEvents() { select ... }`
    (src/main.go lines 112-127): poll the external events first; on quit
    the loop terminates (`none`); otherwise the fired trigger is
    serviced. -/
def loopIter (process : CHIP_8 → Bool → CHIP_8 × StepResult)
    (ev : ExtEvents) (t : Trigger) (s : LoopState) : Option LoopState :=
  let c := processEvents ev s
  if c.1 then some (loopStep process c.2 t).1 else none

/-- Finitely many iterations of the scheduling loop, driven by a list of
    (pending external events, fired trigger) pairs: `none` means the loop
    terminated before exhausting the list, `some s` that it is still
    running in state `s`. -/
def runLoop (process : CHIP_8 → Bool → CHIP_8 × StepResult) :
    List (ExtEvents × Trigger) → LoopState → Option LoopState
  | [], s => some s
  | p :: rest, s =>
    match loopIter process p.1 p.2 s with
    | none => none
    | some s2 => runLoop process rest s2

/-- The driver state at the instant the scheduling loop starts:
    `Paused = Break` (src/main.go line 102) with the freshly loaded
    machine and nothing printed by the loop yet. -/
def initialLoopState (breakFlag : Bool) (vm : CHIP_8) : LoopState :=
  { Paused := breakFlag, VM := vm, output := [] }

/-- Go's `time.Millisecond` in integer nanoseconds (`time.Duration` is an
    integer nanosecond count). -/
def millisecondNs : Nat := 1000000

/-- Go's `time.Second` in integer nanoseconds. -/
def secondNs : Nat := 1000000000

/-- The step ticker's period, `time.Millisecond * 2`
    (src/main.go line 105). -/
def clockPeriodNs : Nat := millisecondNs * 2

/-- The present ticker's period, `time.Second / 60`
    (src/main.go line 106); Go `Duration` division on non-negative values
    is truncating integer division. -/
def videoPeriodNs : Nat := secondNs / 60

end Chip9

namespace Chip9

/- Helper lemmas -/

/-- Registering a list of breakpoints one by one appends them, in order, to
    the machine's breakpoint list. -/
theorem foldl_AddBreakpoint (vm : CHIP_8) (bs : List Nat) :
    bs.foldl CHIP_8.AddBreakpoint vm
      = { vm with breakpoints := vm.breakpoints ++ bs } := by
  induction bs generalizing vm with
  | nil => simp
  | cons b rest ih =>
    simp [List.foldl_cons, ih, CHIP_8.AddBreakpoint, List.append_assoc]

/-- Servicing one trigger never clears the run-state flag. -/
theorem loopStep_paused_mono (process : CHIP_8 → Bool → CHIP_8 × StepResult)
    (s : LoopState) (t : Trigger) (h : s.Paused = true) :
    ((loopStep process s t).1).Paused = true := by
  cases t with
  | video => simpa [loopStep] using h
  | clock =>
    simp only [loopStep, h]
    split <;> rfl

/- Concrete instances used by the witnesses -/

/-- An environment whose assembler and file system both fail. -/
def failEnv : Env :=
  { fs := fun _ => .error ("no such file")
    assembleFn := fun _ => .error ("parse error")
    pong := []
    dummy := [] }

/-- An environment whose file system returns a small two-byte image. -/
def romEnv : Env :=
  { fs := fun _ => .ok [1, 2]
    assembleFn := fun _ => .error ("parse error")
    pong := []
    dummy := [] }

/-- An environment whose assembler returns a three-byte image with one
    breakpoint annotated at 0x210. -/
def asmEnv : Env :=
  { fs := fun _ => .error ("no such file")
    assembleFn := fun _ => .ok { ROM := [1, 2, 3], Breakpoints := [528] }
    pong := []
    dummy := [] }

/-- A machine-advance operation that always reports a breakpoint hit. -/
def bpProcess : CHIP_8 → Bool → CHIP_8 × StepResult :=
  fun vm _ => (vm, .breakpoint ("breakpoint hit"))

/-- A machine-advance operation that always makes normal progress. -/
def normalProcess : CHIP_8 → Bool → CHIP_8 × StepResult :=
  fun vm _ => (vm, .normal)

/-- An empty machine image. -/
def emptyVM : CHIP_8 := { rom := [], breakpoints := [] }

end Chip9

namespace Chip9

/-- C1: for every load request (default, binary or assemble path), a failure
    while producing the machine image does not escape `Load`: the failure
    message is reported and the built-in dummy image is substituted (the
    dummy image itself always loads), so the caller always receives a valid
    machine. -/
theorem load_recovers (env : Env) (file : String) (assemble : Bool)
    (e : String) (dvm : CHIP_8)
    (hfail : LoadBody env file assemble = .error e)
    (hdummy : LoadROM env.dummy = .ok dvm) :
    Load env file assemble = .ok (dvm, [e]) := by
  simp [Load, hfail, hdummy]

/-- Witness for C1: assembling an unparsable source in `failEnv` yields the
    empty dummy machine and the reported parse error. -/
theorem load_recovers_witness :
    Load failEnv ("bad.s") true = .ok (emptyVM, [("parse error")]) :=
  load_recovers failEnv ("bad.s") true ("parse error") emptyVM rfl rfl

/-- C2: when the machine's advance call reports a breakpoint hit, the
    clock-trigger servicing prints the hit's description and sets the run
    state to paused. -/
theorem breakpoint_pauses (process : CHIP_8 → Bool → CHIP_8 × StepResult)
    (s : LoopState) (vm2 : CHIP_8) (msg : String)
    (h : process s.VM s.Paused = (vm2, .breakpoint msg)) :
    ((loopStep process s .clock).1).Paused = true ∧
    ((loopStep process s .clock).1).output = s.output ++ [msg] := by
  simp [loopStep, h]

/-- Witness for C2: a breakpoint-reporting advance call pauses the running
    initial state and prints the description. -/
theorem breakpoint_pauses_witness :
    ((loopStep bpProcess (initialLoopState false emptyVM) .clock).1).Paused
      = true ∧
    ((loopStep bpProcess (initialLoopState false emptyVM) .clock).1).output
      = (initialLoopState false emptyVM).output ++ [("breakpoint hit")] :=
  breakpoint_pauses bpProcess (initialLoopState false emptyVM) emptyVM
    ("breakpoint hit") rfl

/-- C3: the loop body never writes the run-state flag back to running: from
    any paused state, servicing any sequence of fired triggers leaves the
    state paused, whatever the machine's advance operation does — unpausing
    can only come from the external resume path outside the body. -/
theorem paused_stays_paused (process : CHIP_8 → Bool → CHIP_8 × StepResult)
    (ts : List Trigger) (s : LoopState) (h : s.Paused = true) :
    (runTriggers process s ts).Paused = true := by
  induction ts generalizing s with
  | nil => exact h
  | cons t rest ih => exact ih _ (loopStep_paused_mono process s t h)

/-- Witness for C3: a paused start stays paused over a clock, video, clock
    trigger sequence. -/
theorem paused_stays_paused_witness :
    (runTriggers bpProcess (initialLoopState true emptyVM)
      [.clock, .video, .clock]).Paused = true :=
  paused_stays_paused bpProcess [.clock, .video, .clock]
    (initialLoopState true emptyVM) rfl

/-- C4: every clock-trigger servicing calls the machine's advance operation
    exactly once, passing the current run-state flag — paused or not — and
    the video trigger makes no such call; in particular, with the
    pause-at-start flag set, the first clock firing still calls advance
    with paused = true. -/
theorem advance_always_called (process : CHIP_8 → Bool → CHIP_8 × StepResult)
    (s : LoopState) :
    (loopStep process s .clock).2 = [s.Paused] ∧
    (loopStep process s .video).2 = [] ∧
    ∀ vm : CHIP_8,
      (loopStep process (initialLoopState true vm) .clock).2 = [true] := by
  refine ⟨?_, rfl, ?_⟩
  · simp only [loopStep]
    split <;> rfl
  · intro vm
    simp only [loopStep, initialLoopState]
    split <;> rfl

/-- C5: the loop polls the external quit signal on every iteration before
    servicing any trigger, and that signal is its only exit: a run
    terminates exactly when some iteration's pending events carry the quit
    signal. -/
theorem quit_is_only_exit (process : CHIP_8 → Bool → CHIP_8 × StepResult)
    (evs : List (ExtEvents × Trigger)) (s : LoopState) :
    (runLoop process evs s = none ↔ ∃ p ∈ evs, p.1.quit = true) := by
  induction evs generalizing s with
  | nil => simp [runLoop]
  | cons p rest ih =>
    by_cases hq : p.1.quit = true
    · have hit : loopIter process p.1 p.2 s = none := by
        simp [loopIter, processEvents, hq]
      simp only [runLoop, hit]
      simp [hq]
    · have hit : loopIter process p.1 p.2 s
          = some ((loopStep process
              { s with Paused := p.1.runState s.Paused } p.2).1) := by
        simp [loopIter, processEvents, hq]
      simp only [runLoop, hit]
      simp [ih, hq]

/-- C6: the run state at the instant the scheduling loop starts is exactly
    the pause-at-start command-line flag: paused if and only if the flag
    was set. -/
theorem initial_run_state (b : Bool) (vm : CHIP_8) :
    ((initialLoopState b vm).Paused = true ↔ b = true) := Iff.rfl

/-- C7: without the assemble flag, loading a named file is exactly direct
    binary loading: `Load` returns `LoadFile`'s machine unchanged, prints
    nothing, and that machine has no breakpoints registered. -/
theorem binary_path_loads_directly (env : Env) (file : String) (m : CHIP_8)
    (hfile : file ≠ "") (hload : LoadFile env file = .ok m) :
    Load env file false = .ok (m, []) ∧ m.breakpoints = [] := by
  constructor
  · simp [Load, LoadBody, hfile, hload]
  · unfold LoadFile at hload
    split at hload
    · unfold LoadROM at hload
      split at hload
      · cases hload
        rfl
      · simp at hload
    · simp at hload

/-- Witness for C7: loading a two-byte binary file yields exactly that
    image with an empty breakpoint set. -/
theorem binary_path_loads_directly_witness :
    Load romEnv ("game.ch8") false
        = .ok ({ rom := [1, 2], breakpoints := [] }, []) ∧
    ({ rom := [1, 2], breakpoints := [] } : CHIP_8).breakpoints = [] :=
  binary_path_loads_directly romEnv ("game.ch8")
    { rom := [1, 2], breakpoints := [] } (by decide) rfl

/-- C8: on the assemble path, when assembly succeeds and its image loads,
    the loaded machine carries exactly the assembly's breakpoint addresses
    — all of them registered on the freshly constructed machine before the
    loader returns (hence before the scheduling loop starts). -/
theorem assemble_path_registers_breakpoints (env : Env) (file : String)
    (asm : Assembly) (vm : CHIP_8)
    (hfile : file ≠ "") (hasm : env.assembleFn file = .ok asm)
    (hload : LoadROM asm.ROM = .ok vm) :
    Load env file true
      = .ok ({ rom := asm.ROM, breakpoints := asm.Breakpoints }, []) := by
  have hvm : vm = { rom := asm.ROM, breakpoints := [] } := by
    unfold LoadROM at hload
    split at hload
    · cases hload
      rfl
    · simp at hload
  have hbody : LoadBody env file true
      = .ok ({ rom := asm.ROM, breakpoints := asm.Breakpoints }) := by
    rw [hvm] at hload
    simp [LoadBody, hfile, hasm, hload, foldl_AddBreakpoint]
  simp [Load, hbody]

/-- Witness for C8: assembling a source with one breakpoint annotated at
    0x210 yields a machine whose breakpoint set is exactly \x7b0x210\x7d. -/
theorem assemble_path_registers_breakpoints_witness :
    Load asmEnv ("prog.asm") true
      = .ok ({ rom := [1, 2, 3], breakpoints := [528] }, []) :=
  assemble_path_registers_breakpoints asmEnv ("prog.asm")
    { ROM := [1, 2, 3], Breakpoints := [528] }
    { rom := [1, 2, 3], breakpoints := [] } (by decide) rfl rfl

/-- C9 counterexample: the present ticker's period is not exactly 1/60 of a
    second — `time.Second / 60` truncates to 16666666 whole nanoseconds,
    so sixty periods fall short of one second. -/
theorem video_period_not_exact :
    ¬((videoPeriodNs : ℚ) * 60 = (secondNs : ℚ)) := by
  norm_num [videoPeriodNs, secondNs]

/-- C9 (amended): the step ticker's period is exactly 2 ms, and the present
    ticker's period is one second divided by 60 in truncating integer
    nanosecond arithmetic — 16666666 ns, sixty of which fall 40 ns short
    of one second (2/3 ns per period below an exact 1/60 s). -/
theorem ticker_periods :
    clockPeriodNs = 2000000 ∧ videoPeriodNs = 16666666 ∧
    secondNs - 60 * videoPeriodNs = 40 := by
  refine ⟨rfl, ?_, ?_⟩ <;> norm_num [videoPeriodNs, secondNs]

/-- C10: a clock-trigger servicing whose step result is not a breakpoint
    hit leaves the run-state flag unchanged, and so does a video-trigger
    servicing: the breakpoint branch is the loop body's only write to the
    flag. -/
theorem non_breakpoint_preserves_flag
    (process : CHIP_8 → Bool → CHIP_8 × StepResult)
    (s : LoopState) (vm2 : CHIP_8)
    (h : process s.VM s.Paused = (vm2, .normal)) :
    ((loopStep process s .clock).1).Paused = s.Paused ∧
    ((loopStep process s .video).1).Paused = s.Paused := by
  refine ⟨?_, rfl⟩
  simp [loopStep, h]

/-- Witness for C10: a normally progressing advance call leaves a running
    state running. -/
theorem non_breakpoint_preserves_flag_witness :
    ((loopStep normalProcess (initialLoopState false emptyVM) .clock).1).Paused
      = (initialLoopState false emptyVM).Paused ∧
    ((loopStep normalProcess (initialLoopState false emptyVM) .video).1).Paused
      = (initialLoopState false emptyVM).Paused :=
  non_breakpoint_preserves_flag normalProcess
    (initialLoopState false emptyVM) emptyVM rfl

end Chip9
